import Mathlib

/-!
Verification development for the topological/assembly core of the dolfin
repository: `MeshTopology` (src/dolfin/mesh/MeshTopology.h), the vector
assembly and lifting operations declared in
src/cpp/dolfin/fem/assemble_vector_impl.h, and `OldXMLFile::close_file`.

Machine scalars of the assembly kernel (PetscScalar, a real or complex
field element) are embedded as rationals, so that the exact algebraic
identities of the specification are statable and all definitions stay
executable. Fatal precondition violations (dolfin_assert / error) are
embedded as `Option`/`Except` failure values; mutating member functions
become state-passing functions on the `MeshTopology` structure.
-/

namespace Dolfin

/-- Modelled from the spec: MeshConnectivity (declared in MeshTopology.h,
body not under src/) is a ragged adjacency table, for each entity of one
dimension the ordered incident entity indices of another dimension. -/
structure MeshConnectivity where
  connections : List (List Nat)
deriving DecidableEq

/-- Modelled from the spec: the content hash of a connectivity table,
a function of the table data only. -/
def MeshConnectivity.hashValue (c : MeshConnectivity) : Nat :=
  c.connections.foldl (fun h row => row.foldl (fun h2 x => h2 * 31 + x + 1) (h * 17 + 3)) 5

/-- The state of MeshTopology (fields as in MeshTopology.h): per-dimension
entity counts, ghost offsets, global counts, global index maps, the
shared-entity map (keyed by dimension), ghost-cell owners and the
connectivity tables. The ghost offset slot is `none` until `init_ghost`
has set it; the spec's scenario (no ghosts means the offset equals the
entity count) fixes the accessor's defaulting behaviour. -/
structure MeshTopology where
  num_entities : List Nat
  ghost_offset_index : List (Option Nat)
  global_num_entities : List Nat
  global_indices_data : List (List Int)
  shared_entities_data : List (Nat × List (Int × List Nat))
  cell_owner : List Nat
  connectivity : List (List MeshConnectivity)
deriving DecidableEq

/-- The empty mesh topology (default construction). -/
def MeshTopology.empty : MeshTopology :=
  ⟨[], [], [], [], [], [], []⟩

/-- Modelled from the spec: the topological dimension; per-dimension
storage has length `dim + 1` once initialized. -/
def MeshTopology.dim (t : MeshTopology) : Nat :=
  t.num_entities.length - 1

/-- Modelled from the spec: `size(d)` returns the local entity count and
fails (returns `none`) when `d` exceeds the initialized dimension. -/
def MeshTopology.size (t : MeshTopology) (d : Nat) : Option Nat :=
  t.num_entities.get? d

/-- Modelled from the spec: `size_global(d)` returns the process-wide
entity count, failing on an out-of-range dimension. -/
def MeshTopology.size_global (t : MeshTopology) (d : Nat) : Option Nat :=
  t.global_num_entities.get? d

/-- Modelled from the spec: `ghost_offset(d)` returns the index at which
ghost entities begin. When no `init_ghost` call has set an offset for
`d`, there are no ghosts and the offset equals the entity count
(spec scenario: after `init(2,2,2)` alone, `ghost_offset(2) = 2`).
Fails on an out-of-range dimension. -/
def MeshTopology.ghost_offset (t : MeshTopology) (d : Nat) : Option Nat :=
  match t.ghost_offset_index.get? d with
  | none => none
  | some none => t.num_entities.get? d
  | some (some i) => some i

/-- From MeshTopology.h: `global_indices(d)` returns the local-to-global
map after `dolfin_assert(d < _global_indices.size())`; the failed
assertion is the `none` case. -/
def MeshTopology.global_indices (t : MeshTopology) (d : Nat) : Option (List Int) :=
  t.global_indices_data.get? d

/-- From MeshTopology.h: `have_global_indices(dim)` asserts
`dim < _global_indices.size()` and then returns whether the stored
vector is nonempty. -/
def MeshTopology.have_global_indices (t : MeshTopology) (d : Nat) : Option Bool :=
  (t.global_indices_data.get? d).map (fun v => !v.isEmpty)

/-- From MeshTopology.h: `have_shared_entities(dim)` is a plain map
membership test, `_shared_entities.find(dim) != _shared_entities.end()`,
with no dimension-range check: it is total. -/
def MeshTopology.have_shared_entities (t : MeshTopology) (d : Nat) : Bool :=
  t.shared_entities_data.any (fun p => p.1 == d)

/-- The behaviour the spec prescribes for `have_shared_entities`
(an accessor that fails when `d` exceeds the initialized dimension),
stated for comparison with the source function above. -/
def MeshTopology.have_shared_entities_checked (t : MeshTopology) (d : Nat) : Option Bool :=
  if d ≤ t.dim then some (t.have_shared_entities d) else none

/-- Modelled from the spec: `shared_entities(dim)` (declared in
MeshTopology.h, body not under src/) returns the map from local entity
index to sharing process ranks for dimension `dim`, failing with an
invalid-dimension condition when `dim` exceeds the initialized
dimension; a dimension nothing was computed for yields the empty
map. -/
def MeshTopology.shared_entities (t : MeshTopology) (d : Nat) :
    Option (List (Int × List Nat)) :=
  if d < t.num_entities.length then
    some (((t.shared_entities_data.find? (fun p => p.1 == d)).map Prod.snd).getD [])
  else none

/-- Modelled from the spec: `operator()(d0, d1)` returns the connectivity
table for the ordered dimension pair, failing when out of range. -/
def MeshTopology.conn (t : MeshTopology) (d0 d1 : Nat) : Option MeshConnectivity :=
  (t.connectivity.get? d0).bind (fun row => row.get? d1)

/-- Modelled from the spec: `hash()` is derived from the cell-vertex
connectivity (dimension `dim` to dimension 0) only. -/
def MeshTopology.hash (t : MeshTopology) : Option Nat :=
  (t.conn t.dim 0).map MeshConnectivity.hashValue

/-- Modelled from the spec: `init(dim)` allocates per-dimension storage
(entity counts, ghost offsets, global counts, global index slots and the
connectivity matrix) of length `dim + 1`. -/
def MeshTopology.init_dim (t : MeshTopology) (d : Nat) : MeshTopology :=
  { t with
    num_entities := List.replicate (d + 1) 0
    ghost_offset_index := List.replicate (d + 1) none
    global_num_entities := List.replicate (d + 1) 0
    global_indices_data := List.replicate (d + 1) []
    connectivity := List.replicate (d + 1) (List.replicate (d + 1) ⟨[]⟩) }

/-- Modelled from the spec: `init(dim, local_size, global_size)` sets the
local and global entity counts for dimension `dim`; an out-of-range
dimension is a fatal assertion, so the state is unchanged. -/
def MeshTopology.init_size (t : MeshTopology) (d local_size global_size : Nat) : MeshTopology :=
  if d < t.num_entities.length then
    { t with
      num_entities := t.num_entities.set d local_size
      global_num_entities := t.global_num_entities.set d global_size }
  else t

/-- Modelled from the spec: `init_global_indices(dim, size)` allocates the
global-index vector for dimension `dim` with `size` entries (unset
entries marked -1). -/
def MeshTopology.init_global_indices (t : MeshTopology) (d n : Nat) : MeshTopology :=
  if d < t.global_indices_data.length then
    { t with global_indices_data := t.global_indices_data.set d (List.replicate n (-1)) }
  else t

/-- Modelled from the spec: `init_ghost(dim, index)` sets the ghost offset
for dimension `dim` to `index`; no bound against the entity count is
enforced. -/
def MeshTopology.init_ghost (t : MeshTopology) (d i : Nat) : MeshTopology :=
  if d < t.ghost_offset_index.length then
    { t with ghost_offset_index := t.ghost_offset_index.set d (some i) }
  else t

/-- From MeshTopology.h: `set_global_index(dim, local_index, global_index)`
asserts both indices in range and mutates one entry of the stored
global-index vector. -/
def MeshTopology.set_global_index (t : MeshTopology) (d li : Nat) (gi : Int) : MeshTopology :=
  if d < t.global_indices_data.length ∧ li < (t.global_indices_data.getD d []).length then
    { t with
      global_indices_data :=
        t.global_indices_data.set d ((t.global_indices_data.getD d []).set li gi) }
  else t

/-- Modelled from the spec: `clear()` resets all data. -/
def MeshTopology.clear (_t : MeshTopology) : MeshTopology :=
  MeshTopology.empty

/-- The mutating MeshTopology operations, as a syntax of state
transitions (both `init` overloads appear, as `init_dim` and
`init_size`). -/
inductive TopOp where
  | init_dim (d : Nat)
  | init_size (d l g : Nat)
  | init_global_indices (d n : Nat)
  | init_ghost (d i : Nat)
  | set_global_index (d li : Nat) (gi : Int)
  | clear
deriving DecidableEq

/-- Interpretation of one operation on a topology state. -/
def applyOp (op : TopOp) (t : MeshTopology) : MeshTopology :=
  match op with
  | .init_dim d => t.init_dim d
  | .init_size d l g => t.init_size d l g
  | .init_global_indices d n => t.init_global_indices d n
  | .init_ghost d i => t.init_ghost d i
  | .set_global_index d li gi => t.set_global_index d li gi
  | .clear => t.clear

/-- Interpretation of an operation sequence, first operation first. -/
def applyOps (ops : List TopOp) (t : MeshTopology) : MeshTopology :=
  ops.foldl (fun s op => applyOp op s) t

/-- Caller-side safety of one operation in a given state: an `init_ghost`
index stays within the current entity count, and a resize keeps the
entity count at or above an already-established ghost offset. The
operations themselves do not enforce these bounds. -/
def opSafe (t : MeshTopology) : TopOp → Bool
  | .init_ghost d i =>
    match t.num_entities.get? d with
    | some n => decide (i ≤ n)
    | none => true
  | .init_size d l _ =>
    match t.ghost_offset_index.get? d with
    | some (some i) => decide (i ≤ l)
    | _ => true
  | _ => true

/-- Safety of a whole operation sequence, step by step from a state. -/
def safeTrace : List TopOp → MeshTopology → Bool
  | [], _ => true
  | op :: rest, t => opSafe t op && safeTrace rest (applyOp op t)

/-- The ghost-offset invariant: every explicitly stored ghost offset is
bounded by the entity count of its dimension. -/
def ghostInv (t : MeshTopology) : Prop :=
  ∀ d i n, t.ghost_offset_index.get? d = some (some i) →
    t.num_entities.get? d = some n → i ≤ n

lemma ghostInv_empty : ghostInv MeshTopology.empty := by
  intro d i n hg _
  simp [MeshTopology.empty] at hg

lemma ghostInv_applyOp {t : MeshTopology} {op : TopOp}
    (hinv : ghostInv t) (hsafe : opSafe t op = true) : ghostInv (applyOp op t) := by
  cases op with
  | init_dim d =>
    intro e i n hg _
    simp only [applyOp, MeshTopology.init_dim] at hg
    have hmem := List.get?_mem hg
    have := List.eq_of_mem_replicate hmem
    exact absurd this (by simp)
  | init_size d l g =>
    simp only [applyOp, MeshTopology.init_size]
    split
    · intro e i n hg hn
      by_cases hed : e = d
      · subst hed
        have hl : (t.num_entities.set e l).get? e = some l :=
          List.get?_set_eq_of_lt l (by assumption)
        rw [hl] at hn
        injection hn with hn
        subst hn
        simp only [opSafe] at hsafe
        rw [hg] at hsafe
        exact of_decide_eq_true hsafe
      · rw [List.get?_set_ne l t.num_entities (fun h => hed h.symm)] at hn
        exact hinv e i n hg hn
    · exact fun e i n hg hn => hinv e i n hg hn
  | init_ghost d j =>
    simp only [applyOp, MeshTopology.init_ghost]
    split
    · intro e i n hg hn
      by_cases hed : e = d
      · subst hed
        have hl : (t.ghost_offset_index.set e (some j)).get? e = some (some j) :=
          List.get?_set_eq_of_lt (some j) (by assumption)
        rw [hl] at hg
        injection hg with hg
        injection hg with hg
        subst hg
        simp only [opSafe] at hsafe
        rw [hn] at hsafe
        exact of_decide_eq_true hsafe
      · rw [List.get?_set_ne (some j) t.ghost_offset_index (fun h => hed h.symm)] at hg
        exact hinv e i n hg hn
    · exact fun e i n hg hn => hinv e i n hg hn
  | init_global_indices d m =>
    simp only [applyOp, MeshTopology.init_global_indices]
    split
    · exact fun e i n hg hn => hinv e i n hg hn
    · exact fun e i n hg hn => hinv e i n hg hn
  | set_global_index d li gi =>
    simp only [applyOp, MeshTopology.set_global_index]
    split
    · exact fun e i n hg hn => hinv e i n hg hn
    · exact fun e i n hg hn => hinv e i n hg hn
  | clear =>
    intro e i n hg _
    simp [applyOp, MeshTopology.clear, MeshTopology.empty] at hg

lemma ghostInv_applyOps : ∀ (ops : List TopOp) (t : MeshTopology),
    ghostInv t → safeTrace ops t = true → ghostInv (applyOps ops t)
  | [], _, hinv, _ => hinv
  | op :: rest, t, hinv, hsafe => by
    simp only [safeTrace, Bool.and_eq_true] at hsafe
    exact ghostInv_applyOps rest (applyOp op t)
      (ghostInv_applyOp hinv hsafe.1) hsafe.2

/-- Lengths of the per-dimension storage vectors agree (holds for every
topology whose storage was allocated by `init(dim)` or is empty). -/
def storageWF (t : MeshTopology) : Bool :=
  (t.ghost_offset_index.length == t.num_entities.length) &&
  (t.global_num_entities.length == t.num_entities.length) &&
  (t.global_indices_data.length == t.num_entities.length) &&
  (t.connectivity.length == t.num_entities.length)

/-- C3 (claim as stated is false): the state reached by
`init(2)`, `init(2, 2, 2)`, `init_ghost(2, 3)` has
`ghost_offset(2) = 3 > 2 = size(2)`; `init_ghost` does establish an
offset exceeding the entity count. -/
theorem c3_counterexample :
    (applyOps [.init_dim 2, .init_size 2 2 2, .init_ghost 2 3]
      MeshTopology.empty).ghost_offset 2 = some 3 ∧
    (applyOps [.init_dim 2, .init_size 2 2 2, .init_ghost 2 3]
      MeshTopology.empty).size 2 = some 2 ∧
    ¬ (3 ≤ 2) := by
  decide

/-- C3 (amended): `0 ≤ ghost_offset(d) ≤ size(d)` holds in every state
reachable from the empty topology by a sequence of operations in which
each `init_ghost(d, i)` call has `i ≤ size(d)` at the time of the call
and each `init(d, local_size, global_size)` call keeps `local_size` at
or above an already-established ghost offset for `d`; `init_ghost`
itself enforces no such bound. (The lower bound `0 ≤ ghost_offset(d)`
is inherent: offsets are natural numbers.) -/
theorem c3_ghost_offset_invariant (ops : List TopOp)
    (hsafe : safeTrace ops MeshTopology.empty = true) :
    ∀ d k n, (applyOps ops MeshTopology.empty).ghost_offset d = some k →
      (applyOps ops MeshTopology.empty).size d = some n → k ≤ n := by
  intro d k n hg hn
  have hinv : ghostInv (applyOps ops MeshTopology.empty) :=
    ghostInv_applyOps ops _ ghostInv_empty hsafe
  unfold MeshTopology.ghost_offset at hg
  unfold MeshTopology.size at hn
  cases hgo : (applyOps ops MeshTopology.empty).ghost_offset_index.get? d with
  | none => rw [hgo] at hg; exact absurd hg (by simp)
  | some o =>
    cases o with
    | none =>
      rw [hgo] at hg
      simp only at hg
      rw [hg] at hn
      injection hn with hn
      omega
    | some i =>
      rw [hgo] at hg
      simp only at hg
      injection hg with hg
      exact hg ▸ hinv d i n hgo hn

/-- Witness for the amended C3 theorem at a concrete safe trace. -/
theorem c3_ghost_offset_invariant_witness : (1 : Nat) ≤ 2 :=
  c3_ghost_offset_invariant
    [.init_dim 2, .init_size 2 2 2, .init_ghost 2 1]
    (by decide) 2 1 2 (by decide) (by decide)

/-- C4: after `init(2)` and `init(2, local_size := 2, global_size := 2)`
(and no ghost-related call), `size(2) = 2`, `ghost_offset(2) = 2`
and `size_global(2) = 2`. -/
theorem c4_init_scenario :
    (applyOps [.init_dim 2, .init_size 2 2 2] MeshTopology.empty).size 2 = some 2 ∧
    (applyOps [.init_dim 2, .init_size 2 2 2] MeshTopology.empty).ghost_offset 2 = some 2 ∧
    (applyOps [.init_dim 2, .init_size 2 2 2] MeshTopology.empty).size_global 2 = some 2 := by
  decide

/-- C6 (claim as stated is false): on a topology of dimension 2,
`have_shared_entities(5)` returns the value `false` (it is a plain map
membership test with no dimension check), whereas the spec-prescribed
checked accessor fails (`none`) for the same out-of-range dimension. -/
theorem c6_counterexample :
    MeshTopology.dim (applyOps [.init_dim 2] MeshTopology.empty) = 2 ∧
    (applyOps [.init_dim 2] MeshTopology.empty).have_shared_entities 5 = false ∧
    (applyOps [.init_dim 2] MeshTopology.empty).have_shared_entities_checked 5 = none := by
  decide

/-- C6 (amended): every dimension-indexed accessor except
`have_shared_entities` — size, size_global, ghost_offset,
global_indices, have_global_indices, shared_entities and
`operator()(d0, d1)` — fails with an invalid-dimension condition when
`d` exceeds the initialized dimension; `have_shared_entities(d)` instead
returns a Boolean for every `d`, in particular `false`, not a failure,
whenever nothing was computed for dimension `d`. -/
theorem c6_accessors_out_of_range (t : MeshTopology) (d : Nat)
    (hwf : storageWF t = true) (hd : t.num_entities.length ≤ d) :
    t.size d = none ∧ t.size_global d = none ∧ t.ghost_offset d = none ∧
    t.global_indices d = none ∧ t.have_global_indices d = none ∧
    t.shared_entities d = none ∧ t.conn d 0 = none ∧
    (t.shared_entities_data.all (fun p => p.1 != d) = true →
      t.have_shared_entities d = false) := by
  simp only [storageWF, Bool.and_eq_true, beq_iff_eq] at hwf
  obtain ⟨⟨⟨h1, h2⟩, h3⟩, h4⟩ := hwf
  refine ⟨?_, ?_, ?_, ?_, ?_, ?_, ?_, ?_⟩
  · exact List.get?_len_le hd
  · exact List.get?_len_le (h2 ▸ hd)
  · unfold MeshTopology.ghost_offset
    rw [List.get?_len_le (h1 ▸ hd)]
  · exact List.get?_len_le (h3 ▸ hd)
  · unfold MeshTopology.have_global_indices
    rw [List.get?_len_le (h3 ▸ hd)]
    rfl
  · unfold MeshTopology.shared_entities
    rw [if_neg (by omega)]
  · unfold MeshTopology.conn
    rw [List.get?_len_le (h4 ▸ hd)]
    rfl
  · intro h
    simp only [List.all_eq_true, bne_iff_ne, ne_eq] at h
    simp only [MeshTopology.have_shared_entities, List.any_eq_false, beq_iff_eq]
    exact fun p hp => h p hp

/-- Witness for the amended C6 theorem at a concrete topology. -/
theorem c6_accessors_out_of_range_witness :
    (applyOps [.init_dim 2] MeshTopology.empty).size 5 = none ∧
    (applyOps [.init_dim 2] MeshTopology.empty).size_global 5 = none ∧
    (applyOps [.init_dim 2] MeshTopology.empty).ghost_offset 5 = none ∧
    (applyOps [.init_dim 2] MeshTopology.empty).global_indices 5 = none ∧
    (applyOps [.init_dim 2] MeshTopology.empty).have_global_indices 5 = none ∧
    (applyOps [.init_dim 2] MeshTopology.empty).shared_entities 5 = none ∧
    (applyOps [.init_dim 2] MeshTopology.empty).conn 5 0 = none ∧
    ((applyOps [.init_dim 2] MeshTopology.empty).shared_entities_data.all
        (fun p => p.1 != 5) = true →
      (applyOps [.init_dim 2] MeshTopology.empty).have_shared_entities 5 = false) :=
  c6_accessors_out_of_range (applyOps [.init_dim 2] MeshTopology.empty) 5
    (by decide) (by decide)

/-- C8: `hash()` depends only on the cell-vertex connectivity; two
topologies whose dimension-`dim`-to-dimension-0 connectivity tables
agree hash identically, whatever their other fields hold. -/
theorem c8_hash_depends_only_on_cell_vertex_conn (t1 t2 : MeshTopology)
    (h : t1.conn t1.dim 0 = t2.conn t2.dim 0) : t1.hash = t2.hash := by
  unfold MeshTopology.hash
  rw [h]

/-- Witness for C8: two topologies differing in entity counts, ghost
offsets, global indices, shared entities, cell owners and the other
connectivity slots, but with the same cell-vertex table, hash equal. -/
theorem c8_hash_witness :
    MeshTopology.hash
      ⟨[3, 0, 2], [none, none, some 1], [3, 0, 2], [[1], [], []],
        [(0, [(0, [1])])], [7],
        [[⟨[[0]]⟩, ⟨[]⟩, ⟨[]⟩], [⟨[]⟩, ⟨[]⟩, ⟨[]⟩],
          [⟨[[0, 1, 2], [1, 2, 3]]⟩, ⟨[]⟩, ⟨[]⟩]]⟩ =
    MeshTopology.hash
      ⟨[4, 5, 2], [some 0, none, none], [9, 9, 9], [[], [2], []],
        [], [],
        [[⟨[]⟩, ⟨[[5]]⟩, ⟨[]⟩], [⟨[]⟩, ⟨[]⟩, ⟨[[7]]⟩],
          [⟨[[0, 1, 2], [1, 2, 3]]⟩, ⟨[]⟩, ⟨[[9]]⟩]]⟩ :=
  c8_hash_depends_only_on_cell_vertex_conn _ _ (by decide)

/-- C10: `have_global_indices(d)` is `true` exactly when the stored
global-index vector for `d` is nonempty; in particular, immediately
after `init_global_indices(d, 0)` it is `false`, so a computed-but-empty
map is indistinguishable from a not-yet-computed one. -/
theorem c10_have_global_indices_iff :
    (∀ (t : MeshTopology) (d : Nat) (v : List Int),
      t.global_indices_data.get? d = some v →
      (t.have_global_indices d = some true ↔ v ≠ [])) ∧
    (applyOps [.init_dim 2, .init_global_indices 2 0]
      MeshTopology.empty).have_global_indices 2 = some false := by
  constructor
  · intro t d v hv
    simp only [MeshTopology.have_global_indices, hv, Option.map_some]
    cases v <;> simp
  · decide

/-- Witness for C10 at a concrete topology with a length-3 index map. -/
theorem c10_have_global_indices_witness :
    (applyOps [.init_dim 2, .init_global_indices 2 3]
      MeshTopology.empty).have_global_indices 2 = some true ↔
    ([-1, -1, -1] : List Int) ≠ [] :=
  c10_have_global_indices_iff.1
    (applyOps [.init_dim 2, .init_global_indices 2 3] MeshTopology.empty)
    2 [-1, -1, -1] (by decide)

/-! Vector assembly (declared in assemble_vector_impl.h; the loop body is
modelled from the spec). Scalars are rationals standing for the exact
field arithmetic of PetscScalar. -/

/-- Modelled from the spec: a linear Form over one test space, reduced to
what the assembly loop consumes per owned cell, in local-index order:
the cell's dof indices (from the dof-map) and its local contribution
tensor. -/
structure Form where
  cells : List (List Nat × List ℚ)
deriving DecidableEq

/-- Accumulate (add, never overwrite) one value into `b` at index `i`. -/
def addAt (b : List ℚ) (i : Nat) (v : ℚ) : List ℚ :=
  b.set i (b.getD i 0 + v)

/-- Accumulate one cell's local contribution into `b` at its mapped dof
indices. -/
def accumCell (b : List ℚ) (c : List Nat × List ℚ) : List ℚ :=
  (c.1.zip c.2).foldl (fun acc p => addAt acc p.1 p.2) b

/-- Modelled from the spec: `assemble(b, L)` iterates owned cells in
local-index order and adds each local entry into `b`; pre-existing
values of `b` are added to, not cleared. -/
def assemble (b : List ℚ) (L : Form) : List ℚ :=
  L.cells.foldl accumCell b

/-- Elementwise sum of two vectors of equal length. -/
def vecAdd (x y : List ℚ) : List ℚ :=
  List.zipWith (· + ·) x y

lemma length_addAt (b : List ℚ) (i : Nat) (v : ℚ) :
    (addAt b i v).length = b.length :=
  List.length_set b i _

lemma length_foldl_addAt (ps : List (Nat × ℚ)) :
    ∀ b : List ℚ, (ps.foldl (fun acc p => addAt acc p.1 p.2) b).length = b.length := by
  induction ps with
  | nil => intro b; rfl
  | cons p rest ih =>
    intro b
    simp only [List.foldl_cons]
    rw [ih, length_addAt]

lemma length_accumCell (b : List ℚ) (c : List Nat × List ℚ) :
    (accumCell b c).length = b.length :=
  length_foldl_addAt _ b

lemma length_assemble (L : Form) : ∀ b : List ℚ, (assemble b L).length = b.length := by
  unfold assemble
  induction L.cells with
  | nil => intro b; rfl
  | cons c rest ih =>
    intro b
    simp only [List.foldl_cons]
    rw [ih, length_accumCell]

lemma addAt_vecAdd : ∀ (b c : List ℚ) (i : Nat) (v : ℚ), b.length = c.length →
    addAt (vecAdd b c) i v = vecAdd b (addAt c i v)
  | [], [], _, _, _ => rfl
  | [], y :: ys, _, _, h => by simp at h
  | x :: xs, [], _, _, h => by simp at h
  | x :: xs, y :: ys, 0, v, _ => by
    simp [addAt, vecAdd, List.getD]
    ring
  | x :: xs, y :: ys, i + 1, v, h => by
    have := addAt_vecAdd xs ys i v (by simpa using h)
    simp only [addAt, vecAdd] at this ⊢
    simp only [List.zipWith_cons_cons, List.getD_cons_succ]
    show (x + y) :: ((List.zipWith (· + ·) xs ys).set i _) = _
    rw [this]
    rfl

lemma foldl_addAt_vecAdd (ps : List (Nat × ℚ)) :
    ∀ (b c : List ℚ), b.length = c.length →
    ps.foldl (fun acc p => addAt acc p.1 p.2) (vecAdd b c) =
      vecAdd b (ps.foldl (fun acc p => addAt acc p.1 p.2) c) := by
  induction ps with
  | nil => intro b c _; rfl
  | cons p rest ih =>
    intro b c h
    simp only [List.foldl_cons]
    rw [addAt_vecAdd b c p.1 p.2 h, ih b _ (by rw [length_addAt, h])]

lemma accumCell_vecAdd (b c : List ℚ) (cell : List Nat × List ℚ)
    (h : b.length = c.length) :
    accumCell (vecAdd b c) cell = vecAdd b (accumCell c cell) :=
  foldl_addAt_vecAdd _ b c h

lemma assemble_vecAdd (L : Form) : ∀ (b c : List ℚ), b.length = c.length →
    assemble (vecAdd b c) L = vecAdd b (assemble c L) := by
  unfold assemble
  induction L.cells with
  | nil => intro b c _; rfl
  | cons cell rest ih =>
    intro b c h
    simp only [List.foldl_cons]
    rw [accumCell_vecAdd b c cell h, ih b _ (by rw [length_accumCell, h])]

lemma vecAdd_zero_right (b : List ℚ) : vecAdd b (List.replicate b.length 0) = b := by
  induction b with
  | nil => rfl
  | cons x xs ih =>
    simp only [List.length_cons, List.replicate_succ, vecAdd,
      List.zipWith_cons_cons, add_zero]
    exact congrArg (x :: ·) ih

/-- C2: `assemble` accumulates rather than overwrites. For every vector
`b` and Form `L`, `assemble(b, L)` equals `b` plus the assembly into a
zero vector; consequently assembling the same Form twice into a zeroed
vector, without clearing in between, equals assembling once and adding
the result to itself. -/
theorem c2_assemble_accumulates :
    (∀ (b : List ℚ) (L : Form),
      assemble b L = vecAdd b (assemble (List.replicate b.length 0) L)) ∧
    (∀ (n : Nat) (L : Form),
      assemble (assemble (List.replicate n 0) L) L =
        vecAdd (assemble (List.replicate n 0) L) (assemble (List.replicate n 0) L)) := by
  have key : ∀ (b : List ℚ) (L : Form),
      assemble b L = vecAdd b (assemble (List.replicate b.length 0) L) := by
    intro b L
    conv_lhs => rw [← vecAdd_zero_right b]
    rw [assemble_vecAdd L b (List.replicate b.length 0) (by simp)]
  refine ⟨key, fun n L => ?_⟩
  have h := key (assemble (List.replicate n 0) L) L
  rw [length_assemble, List.length_replicate] at h
  exact h

/-! Lifting of Dirichlet boundary conditions (apply_lifting / lift_bc,
declared in assemble_vector_impl.h; bodies modelled from the spec:
`b ← b − scale · A (g − x0)` with the gap `g − x0` masked to zero at
unconstrained dofs). -/

/-- Dot product of a matrix row against the masked gap function, the row
entry at position `k` meeting gap index `j + k`. -/
def dotFrom (row : List ℚ) (gx : Nat → ℚ) (j : Nat) : ℚ :=
  match row with
  | [] => 0
  | r :: rest => r * gx j + dotFrom rest gx (j + 1)

/-- Modelled from the spec: the boundary gap `g − x0` as the lifting uses
it, exactly zero wherever `bc_markers1` is false. -/
def maskedGap (g : List ℚ) (markers : List Bool) (x0 : List ℚ) (j : Nat) : ℚ :=
  if markers.getD j false then g.getD j 0 - x0.getD j 0 else 0

/-- The common correction loop: every row `i` of `b` receives
`b_i − scale · (A_i · gx)`. -/
def liftCore (b : List ℚ) (A : List (List ℚ)) (gx : Nat → ℚ) (scale : ℚ) : List ℚ :=
  b.enum.map (fun p => p.2 - scale * dotFrom (A.getD p.1 []) gx 0)

/-- Modelled from the spec: `lift_bc(b, a, bc_values1, bc_markers1, x0,
scale)` computes `b ← b − scale·A·(g − x0)` with the gap masked by
`bc_markers1`. -/
def lift_bc_x0 (b : List ℚ) (A : List (List ℚ)) (bc_values1 : List ℚ)
    (bc_markers1 : List Bool) (x0 : List ℚ) (scale : ℚ) : List ℚ :=
  liftCore b A (maskedGap bc_values1 bc_markers1 x0) scale

/-- Modelled from the spec: the `x0`-free `lift_bc` overload; `x0` is
implicitly zero. -/
def lift_bc (b : List ℚ) (A : List (List ℚ)) (bc_values1 : List ℚ)
    (bc_markers1 : List Bool) (scale : ℚ) : List ℚ :=
  liftCore b A (maskedGap bc_values1 bc_markers1 []) scale

/-- Modelled from the spec: the boundary gap of one block, from its
ordered (dof, value) boundary-condition pairs: `value − x0_j` at a
constrained dof, zero elsewhere. -/
def bcGap (bcs : List (Nat × ℚ)) (x0 : List ℚ) (j : Nat) : ℚ :=
  match bcs.find? (fun p => p.1 == j) with
  | some p => p.2 - x0.getD j 0
  | none => 0

/-- Modelled from the spec: `apply_lifting(b, a, bcs1, x0, scale)` checks
that `a` and `bcs1` have the same number of blocks and that every block
matrix acts on the test space `b` was built over, reporting a fatal
error before any mutation otherwise, then applies the per-block
correction `b ← b − scale · A_j (g_j − x0_j)`; a block whose `x0` entry
is empty uses the zero vector. -/
def apply_lifting (b : List ℚ) (a : List (List (List ℚ)))
    (bcs1 : List (List (Nat × ℚ))) (x0 : List (List ℚ)) (scale : ℚ) :
    Except String (List ℚ) :=
  if a.length ≠ bcs1.length then
    Except.error "Mismatch in size of a and bcs1"
  else if a.any (fun A => A.length != b.length) then
    Except.error "Test space mismatch between a and b"
  else
    Except.ok ((List.range a.length).foldl
      (fun acc j => liftCore acc (a.getD j []) (bcGap (bcs1.getD j []) (x0.getD j [])) scale) b)

lemma getD_replicate_zero (n j : Nat) : (List.replicate n (0 : ℚ)).getD j 0 = 0 := by
  rcases Nat.lt_or_ge j n with h | h
  · rw [List.getD_eq_getElem?_getD]
    simp [List.getElem?_replicate, h]
  · rw [List.getD_eq_default _ _ (by simpa using h)]

lemma dotFrom_gx_congr (gx gx' : Nat → ℚ) (hgx : ∀ k, gx k = gx' k) :
    ∀ (row : List ℚ) (j : Nat), dotFrom row gx j = dotFrom row gx' j := by
  intro row
  induction row with
  | nil => intro j; rfl
  | cons r rest ih =>
    intro j
    simp only [dotFrom, hgx j, ih (j + 1)]

lemma liftCore_gx_congr (b : List ℚ) (A : List (List ℚ)) (gx gx' : Nat → ℚ)
    (scale : ℚ) (hgx : ∀ k, gx k = gx' k) :
    liftCore b A gx scale = liftCore b A gx' scale := by
  unfold liftCore
  exact List.map_eq_map_iff.mpr
    (fun p _ => by rw [dotFrom_gx_congr gx gx' hgx])

lemma maskedGap_empty_x0 (g : List ℚ) (markers : List Bool) (n k : Nat) :
    maskedGap g markers [] k = maskedGap g markers (List.replicate n 0) k := by
  unfold maskedGap
  rw [getD_replicate_zero]
  rfl

lemma bcGap_empty_x0 (bcs : List (Nat × ℚ)) (n k : Nat) :
    bcGap bcs [] k = bcGap bcs (List.replicate n 0) k := by
  unfold bcGap
  cases bcs.find? (fun p => p.1 == k) with
  | none => rfl
  | some p => rw [getD_replicate_zero]; rfl

lemma foldl_liftCore_congr (l : List Nat) (f g : Nat → (Nat → ℚ))
    (a : List (List (List ℚ))) (scale : ℚ)
    (h : ∀ j k, f j k = g j k) :
    ∀ acc : List ℚ,
      l.foldl (fun acc j => liftCore acc (a.getD j []) (f j) scale) acc =
      l.foldl (fun acc j => liftCore acc (a.getD j []) (g j) scale) acc := by
  induction l with
  | nil => intro acc; rfl
  | cons j rest ih =>
    intro acc
    simp only [List.foldl_cons]
    rw [liftCore_gx_congr acc (a.getD j []) (f j) (g j) scale (h j), ih]

/-- C5: `apply_lifting` with a block-count mismatch between `a` and
`bcs1`, or with some block whose test-space size differs from that of
`b`, fails with a fatal error and produces no modified vector. -/
theorem c5_apply_lifting_preconditions (b : List ℚ) (a : List (List (List ℚ)))
    (bcs1 : List (List (Nat × ℚ))) (x0 : List (List ℚ)) (scale : ℚ) :
    (a.length ≠ bcs1.length →
      apply_lifting b a bcs1 x0 scale = Except.error "Mismatch in size of a and bcs1") ∧
    (a.length = bcs1.length → a.any (fun A => A.length != b.length) = true →
      apply_lifting b a bcs1 x0 scale = Except.error "Test space mismatch between a and b") := by
  constructor
  · intro h
    unfold apply_lifting
    rw [if_pos h]
  · intro h hspace
    unfold apply_lifting
    rw [if_neg (by simp [h]), if_pos hspace]

/-- Witness for C5: one block but no boundary-condition sets is a size
mismatch; matching counts but a 1-row matrix against a 2-entry vector is
a test-space mismatch. -/
theorem c5_apply_lifting_preconditions_witness :
    apply_lifting [0, 0] [[[1, 2], [3, 4]]] [] [] 1 =
      Except.error "Mismatch in size of a and bcs1" ∧
    apply_lifting [0, 0] [[[1, 2]]] [[(0, 1)]] [] 1 =
      Except.error "Test space mismatch between a and b" :=
  ⟨(c5_apply_lifting_preconditions [0, 0] [[[1, 2], [3, 4]]] [] [] 1).1 (by decide),
   (c5_apply_lifting_preconditions [0, 0] [[[1, 2]]] [[(0, 1)]] [] 1).2
     (by decide) (by decide)⟩

/-- C7: an omitted iterate is a zero iterate. The `x0`-free `lift_bc`
equals the `x0`-aware overload at a zero vector of any length, and
`apply_lifting` with an empty `x0` entry for block `j` equals
`apply_lifting` with a zero vector of any length in that slot. -/
theorem c7_omitted_x0_is_zero :
    (∀ (b : List ℚ) (A : List (List ℚ)) (g : List ℚ) (markers : List Bool)
      (scale : ℚ) (n : Nat),
      lift_bc b A g markers scale = lift_bc_x0 b A g markers (List.replicate n 0) scale) ∧
    (∀ (b : List ℚ) (a : List (List (List ℚ))) (bcs1 : List (List (Nat × ℚ)))
      (x0 : List (List ℚ)) (scale : ℚ) (j n : Nat),
      x0.getD j [] = [] →
      apply_lifting b a bcs1 x0 scale =
        apply_lifting b a bcs1 (x0.set j (List.replicate n 0)) scale) := by
  constructor
  · intro b A g markers scale n
    unfold lift_bc lift_bc_x0
    exact liftCore_gx_congr b A _ _ scale (maskedGap_empty_x0 g markers n)
  · intro b a bcs1 x0 scale j n hj
    unfold apply_lifting
    split
    · rfl
    · split
      · rfl
      · refine congrArg Except.ok ?_
        refine foldl_liftCore_congr (List.range a.length)
          (fun m => bcGap (bcs1.getD m []) (x0.getD m []))
          (fun m => bcGap (bcs1.getD m []) ((x0.set j (List.replicate n 0)).getD m []))
          a scale (fun m k => ?_) b
        show bcGap (bcs1.getD m []) (x0.getD m []) k =
          bcGap (bcs1.getD m []) ((x0.set j (List.replicate n 0)).getD m []) k
        by_cases hmj : m = j
        · subst hmj
          rw [hj]
          rcases Nat.lt_or_ge m x0.length with hlt | hge
          · have : (x0.set m (List.replicate n 0)).getD m [] = List.replicate n 0 := by
              rw [List.getD_eq_getElem?_getD, List.getElem?_set_self
                (by simpa using hlt)]
              rfl
            rw [this]
            exact bcGap_empty_x0 (bcs1.getD m []) n k
          · have : (x0.set m (List.replicate n 0)).getD m [] = [] := by
              rw [List.getD_eq_getElem?_getD, List.getElem?_eq_none (by simpa using hge)]
              rfl
            rw [this]
        · have : (x0.set j (List.replicate n 0)).getD m [] = x0.getD m [] := by
            rw [List.getD_eq_getElem?_getD, List.getElem?_set_ne
              (fun hc => hmj hc.symm), ← List.getD_eq_getElem?_getD]
          rw [this]

lemma dotFrom_mask_congr : ∀ (r ralt : List ℚ) (gx : Nat → ℚ) (j0 : Nat),
    r.length = ralt.length →
    (∀ k, k < r.length → gx (j0 + k) ≠ 0 → r.getD k 0 = ralt.getD k 0) →
    dotFrom r gx j0 = dotFrom ralt gx j0
  | [], [], _, _, _, _ => rfl
  | [], y :: ys, _, _, hlen, _ => by simp at hlen
  | x :: xs, [], _, _, hlen, _ => by simp at hlen
  | x :: xs, y :: ys, gx, j0, hlen, hcond => by
    simp only [dotFrom]
    have hhead : x * gx j0 = y * gx j0 := by
      by_cases hz : gx j0 = 0
      · rw [hz, mul_zero, mul_zero]
      · have := hcond 0 (by simp) (by rw [Nat.add_zero]; exact hz)
        simp only [List.getD_cons_zero] at this
        rw [this]
    have htail : dotFrom xs gx (j0 + 1) = dotFrom ys gx (j0 + 1) :=
      dotFrom_mask_congr xs ys gx (j0 + 1) (by simpa using hlen)
        (fun k hk hnz => by
          have := hcond (k + 1) (by simpa using Nat.succ_lt_succ hk)
            (by rw [Nat.add_succ]; rw [Nat.succ_add] at hnz; exact hnz)
          simpa using this)
    rw [hhead, htail]

/-- C1 (claim as stated is false): with `A = [[1,1],[0,1]]`, dof 1
constrained at `g = 2`, dof 0 unconstrained with `g = x0` there,
`scale = 1` and `b = 0`, the lifting writes the nonzero correction `-2`
into the unconstrained row 0 (the spec itself expects
`b = -A[:, bc_dof] · g` at unconstrained rows). -/
theorem c1_counterexample :
    [false, true].getD 0 false = false ∧
    ([0, 2] : List ℚ).getD 0 0 = ([0, 0] : List ℚ).getD 0 0 ∧
    (lift_bc_x0 [0, 0] [[1, 1], [0, 1]] [0, 2] [false, true] [0, 0] 1).get? 0 =
      some (-2) ∧
    ((-2 : ℚ) ≠ 0) := by
  have h : lift_bc_x0 [0, 0] [[1, 1], [0, 1]] [0, 2] [false, true] [0, 0] 1 =
      [-2, -2] := by
    simp [lift_bc_x0, liftCore, dotFrom, maskedGap, List.enum]
  exact ⟨rfl, rfl, by rw [h]; rfl, by norm_num⟩

/-- C1 (amended): the masked gap `g − x0` the lifting applies `A_j` to is
exactly 0 at every unconstrained dof, so the correction is independent
of the entries of `A_j` in unconstrained columns: two matrices of equal
shape agreeing on the constrained columns yield the same lifted vector,
regardless of their off-diagonal (unconstrained-column) structure. The
correction received by an unconstrained row of `b` need not be zero. -/
theorem c1_lifting_masked_gap :
    (∀ (g : List ℚ) (markers : List Bool) (x0 : List ℚ) (k : Nat),
      markers.getD k false = false → maskedGap g markers x0 k = 0) ∧
    (∀ (b : List ℚ) (A Aalt : List (List ℚ)) (g : List ℚ) (markers : List Bool)
      (x0 : List ℚ) (scale : ℚ),
      A.length = Aalt.length →
      (∀ i, i < A.length → (A.getD i []).length = (Aalt.getD i []).length) →
      (∀ i, i < A.length → ∀ k, k < (A.getD i []).length →
        markers.getD k false = true →
        (A.getD i []).getD k 0 = (Aalt.getD i []).getD k 0) →
      lift_bc_x0 b A g markers x0 scale = lift_bc_x0 b Aalt g markers x0 scale) := by
  have hmask : ∀ (g : List ℚ) (markers : List Bool) (x0 : List ℚ) (k : Nat),
      markers.getD k false = false → maskedGap g markers x0 k = 0 := by
    intro g markers x0 k hk
    unfold maskedGap
    rw [hk]
    rfl
  refine ⟨hmask, ?_⟩
  intro b A Aalt g markers x0 scale hlen hrows hentries
  unfold lift_bc_x0 liftCore
  refine List.map_eq_map_iff.mpr (fun p _ => ?_)
  have hdot : dotFrom (A.getD p.1 []) (maskedGap g markers x0) 0 =
      dotFrom (Aalt.getD p.1 []) (maskedGap g markers x0) 0 := by
    rcases Nat.lt_or_ge p.1 A.length with hlt | hge
    · refine dotFrom_mask_congr _ _ _ 0 (hrows p.1 hlt) (fun k hk hnz => ?_)
      rw [Nat.zero_add] at hnz
      by_cases hm : markers.getD k false = true
      · exact hentries p.1 hlt k hk hm
      · exact absurd (hmask g markers x0 k (by simpa using hm)) hnz
    · rw [List.getD_eq_default _ _ hge, List.getD_eq_default _ _ (hlen ▸ hge)]
  rw [hdot]

/-- Witness for the amended C1 theorem: two matrices differing only in
the unconstrained column 0 produce the same lifted vector. -/
theorem c1_lifting_masked_gap_witness :
    lift_bc_x0 [1, 1] [[1, 2], [3, 4]] [0, 5] [false, true] [0, 0] 1 =
      lift_bc_x0 [1, 1] [[9, 2], [8, 4]] [0, 5] [false, true] [0, 0] 1 :=
  c1_lifting_masked_gap.2 [1, 1] [[1, 2], [3, 4]] [[9, 2], [8, 4]] [0, 5]
    [false, true] [0, 0] 1 (by decide) (by decide) (by decide)

/-- Witness for C7 part 2 at a concrete block system with an empty `x0`
slot for block 0. -/
theorem c7_omitted_x0_is_zero_witness :
    apply_lifting [1, 1] [[[1, 2], [3, 4]]] [[(1, 5)]] [[]] 1 =
      apply_lifting [1, 1] [[[1, 2], [3, 4]]] [[(1, 5)]]
        (([[]] : List (List ℚ)).set 0 (List.replicate 2 0)) 1 :=
  c7_omitted_x0_is_zero.2 [1, 1] [[[1, 2], [3, 4]]] [[(1, 5)]] [[]] 1 0 2 (by decide)

/-! OldXMLFile::close_file (src/unnamed/part_000). The output stream is
embedded as a flag record; writing the closing XML element and closing
the file become flag updates, and error(...) becomes an Except error. -/

/-- The suffix of a filename from its last dot (boost::filesystem
extension, including the dot), empty when the name has no dot. -/
def extAux : List Char → Option (List Char)
  | [] => none
  | c :: rest =>
    match extAux rest with
    | some e => some e
    | none => if c = '.' then some (c :: rest) else none

/-- String-level wrapper of `extAux`. -/
def extOf (s : String) : String :=
  match extAux s.toList with
  | some e => String.mk e
  | none => ""

/-- Observable state of the output stream of an OldXMLFile. -/
structure XMLStream where
  wroteEnd : Bool
  closed : Bool
deriving DecidableEq

/-- From part_000: `close_file` writes the closing dolfin element, then
checks the filename extension: `.gz` is a fatal error (compressed XML
output unsupported) raised without closing; otherwise the stream is
closed when it is an output file stream. `is_outfile` is whether the
`dynamic_cast` of the stream to `std::ofstream` succeeds. -/
def close_file (filename : String) (is_outfile : Bool) (st : XMLStream) :
    Except String XMLStream :=
  let st1 : XMLStream := { st with wroteEnd := true }
  if extOf filename = ".gz" then
    Except.error "Compressed XML output not yet supported."
  else
    Except.ok (if is_outfile then { st1 with closed := true } else st1)

/-- C9: on a `.gz` filename, `close_file` reports the fatal
unsupported-compressed-output error and does not close the stream (the
single error value is final, there is no retry); on any other extension
it completes, closing the file stream. -/
theorem c9_close_file_gz (f : String) (is_outfile : Bool) (st : XMLStream) :
    (extOf f = ".gz" →
      close_file f is_outfile st =
        Except.error "Compressed XML output not yet supported.") ∧
    (extOf f ≠ ".gz" →
      close_file f true st = Except.ok ⟨true, true⟩) := by
  constructor
  · intro h
    unfold close_file
    rw [if_pos h]
  · intro h
    unfold close_file
    rw [if_neg h]
    rfl

/-- Witness for C9 at the filenames mesh.xml.gz and mesh.xml. -/
theorem c9_close_file_gz_witness :
    close_file "mesh.xml.gz" true ⟨false, false⟩ =
      Except.error "Compressed XML output not yet supported." ∧
    close_file "mesh.xml" true ⟨false, false⟩ = Except.ok ⟨true, true⟩ :=
  ⟨(c9_close_file_gz "mesh.xml.gz" true ⟨false, false⟩).1 (by decide),
   (c9_close_file_gz "mesh.xml" true ⟨false, false⟩).2 (by decide)⟩

end Dolfin
